import Mathlib

/-!
Shallow embedding of the identity & session subsystem of the training-range
backend: the auth service (services/auth/internal/server/server.go) and the
gateway authentication middleware
(services/gateway/internal/middleware/auth.go).

Database state is modelled as explicit lists of rows; each RPC handler is a
pure function from the pre-state and the call's non-deterministic inputs
(current time, random bytes, team-lookup result, transaction outcomes) to a
result together with the post-state visible after the call.  A transaction's
writes become visible only on commit; every error path returns the pre-state,
mirroring pgx `defer tx.Rollback`.
-/

namespace CyberArena

/-- gRPC status codes used by the auth service handlers. -/
inductive Code where
  | invalidArgument
  | unauthenticated
  | notFound
  | internal
  deriving DecidableEq, Repr

/-- A gRPC status error: code plus message, as built by `status.Error`. -/
structure GrpcErr where
  code : Code
  msg : String
  deriving DecidableEq, Repr

/-! ## JWT model

`claimsWithTeam` in server.go is `{team_id,omitempty}` plus the registered
claims `sub`, `iat`, `exp`; the gateway's `Claims` struct additionally reads a
`role,omitempty` field.  Because `omitempty` makes the empty string and an
absent JSON key indistinguishable on the wire, one structure with `""` for
"absent" models both faithfully. -/

/-- Claim set of an access token. `role = ""` models an absent `role` key;
tokens minted by the auth service never set it (see `claimsWithTeam`). -/
structure Claims where
  teamID : String
  role : String
  sub : String
  iat : Nat
  exp : Nat
  deriving DecidableEq, Repr

/-- The auth service's claim structure (`claimsWithTeam` in server.go) has no
role field, so its JSON serialization never carries a `role` key. -/
def claimsWithTeam (teamID sub : String) (iat exp : Nat) : Claims :=
  { teamID := teamID, role := "", sub := sub, iat := iat, exp := exp }

/-- Deterministic serialization of a claim set, standing for the JSON payload
bytes that HMAC-SHA256 is computed over. -/
def encodeClaims (c : Claims) : String :=
  c.teamID ++ "|" ++ c.role ++ "|" ++ c.sub ++ "|" ++ toString c.iat ++ "|" ++ toString c.exp

/-- Abstract model of the HMAC-SHA256 tag over a payload under a secret: a
deterministic function of both.  Only determinism is used in the proofs. -/
def hmacTag (secret payload : String) : String :=
  "HMAC-SHA256(" ++ secret ++ "|" ++ payload ++ ")"

/-- A signed JWT: algorithm header, claim set, and signature. -/
structure JWT where
  alg : String
  claims : Claims
  sig : String
  deriving DecidableEq, Repr

/-- Signing with `jwt.NewWithClaims(jwt.SigningMethodHS256, claims)` followed
by `SignedString(secret)`. -/
def signJWT (secret : String) (c : Claims) : JWT :=
  { alg := "HS256", claims := c, sig := hmacTag secret (encodeClaims c) }

/-- Model of `jwt.ParseWithClaims` with the key function used by both the auth
service and the gateway: the algorithm must be HS256, the signature must
verify under the shared secret, and jwt/v5's default validation requires the
current time to be strictly before `exp`. -/
def parseHS256 (secret : String) (tok : JWT) (now : Nat) : Option Claims :=
  if tok.alg ≠ "HS256" then none
  else if tok.sig ≠ hmacTag secret (encodeClaims tok.claims) then none
  else if ¬ now < tok.claims.exp then none
  else some tok.claims

/-- Access-token issuance as done inline by `Login` (server.go:126-132) and
`Refresh` (server.go:206-212): claims `{team_id?, sub, iat, exp}` — no role —
signed with HMAC-SHA256 under the server secret. -/
def issueAccessToken (secret userID teamID : String) (now ttl : Nat) : JWT :=
  signJWT secret (claimsWithTeam teamID userID now (now + ttl))

/-! ## Opaque refresh tokens (`generateOpaqueToken`, server.go:243-250) -/

/-- URL-safe base64 alphabet (RFC 4648 §5). -/
def b64urlAlphabet : List Char :=
  "ABCDEFGHIJKLMNOPQRSTUVWXYZabcdefghijklmnopqrstuvwxyz0123456789-_".data

/-- Character for a 6-bit group. -/
def b64Char (n : Nat) : Char := b64urlAlphabet.getD n 'A'

/-- Unpadded base64url encoding of a byte list (Go's `base64.RawURLEncoding`).
Bytes are Nat values below 256. -/
def base64RawURL : List Nat → List Char
  | [] => []
  | [a] => [b64Char (a / 4 % 64), b64Char (a % 4 * 16)]
  | [a, b] => [b64Char (a / 4 % 64), b64Char (a % 4 * 16 + b / 16 % 16), b64Char (b % 16 * 4)]
  | a :: b :: c :: rest =>
      b64Char (a / 4 % 64) :: b64Char (a % 4 * 16 + b / 16 % 16) ::
        b64Char (b % 16 * 4 + c / 64 % 4) :: b64Char (c % 64) :: base64RawURL rest

/-- Model of `generateOpaqueToken`: it reads 32 bytes from `crypto/rand`
(`randBytes = some bs` when the read succeeds, `none` when it fails) and
base64url-encodes them; on a failed read it FALLS BACK to the decimal
nanosecond timestamp (`fmt.Sprintf("%d", time.Now().UnixNano())`) instead of
failing. -/
def generateOpaqueToken (randBytes : Option (List Nat)) (nowUnixNano : Nat) : String :=
  match randBytes with
  | none => toString nowUnixNano
  | some bs => String.mk (base64RawURL bs)

/-! ## Refresh-token ledger (table `auth_refresh_tokens`, schema.go) -/

/-- A row of `auth_refresh_tokens`: token (primary key), user, expiry,
revocation flag, and nullable `replaced_by_token`. -/
structure RefreshRow where
  token : String
  userId : String
  expiresAt : Nat
  revoked : Bool
  replacedBy : Option String
  deriving DecidableEq, Repr

/-- The ledger: the rows of `auth_refresh_tokens`. -/
abbrev RefreshDB := List RefreshRow

/-- Model of `select ... from auth_refresh_tokens where token=$1`. -/
def findRow (db : RefreshDB) (t : String) : Option RefreshRow :=
  db.find? (fun r => r.token == t)

/-- The rejection test performed by `Refresh` (server.go:191):
`revoked || time.Now().After(expiresAt) || replacedBy != ""`, where
`replacedBy` was scanned via `coalesce(replaced_by_token, '')`.  Note that
`time.Time.After` is strict, so a token is rejected only strictly after its
expiry instant. -/
def refreshRejects (r : RefreshRow) (now : Nat) : Bool :=
  r.revoked || decide (r.expiresAt < now) || (r.replacedBy.getD "" != "")

/-- Usability predicate written from the spec's words, for comparison:
a token is usable iff `revoked = false` AND `now() < expires_at` AND
`replaced_by_token IS NULL`. -/
def specUsable (r : RefreshRow) (now : Nat) : Bool :=
  !r.revoked && decide (now < r.expiresAt) && (r.replacedBy == none)

/-- Model of
`update auth_refresh_tokens set revoked=true, replaced_by_token=$2 where token=$1`. -/
def revokeAndReplace (db : RefreshDB) (t newTok : String) : RefreshDB :=
  db.map (fun r => if r.token == t then { r with revoked := true, replacedBy := some newTok } else r)

/-- Model of `insert into auth_refresh_tokens (token, user_id, expires_at)
values ($1,$2,$3)`: fails (unique-violation error) when the primary key
`token` is already present. -/
def insertRow (db : RefreshDB) (r : RefreshRow) : Option RefreshDB :=
  if db.any (fun x => x.token == r.token) then none else some (db ++ [r])

/-- Model of
`update auth_refresh_tokens set revoked=true where user_id=$1 and revoked=false`. -/
def revokeAllFor (db : RefreshDB) (userId : String) : RefreshDB :=
  db.map (fun r => if r.userId == userId && !r.revoked then { r with revoked := true } else r)

/-! ## Credentials (table `auth_credentials`) and users -/

/-- A row of the `users` table owned by the profile collaborator (only the
columns the auth service's login join reads). -/
structure UserRow where
  id : String
  name : String
  deriving DecidableEq, Repr

/-- A row of `auth_credentials`. -/
structure Credential where
  userId : String
  passwordHash : String
  deriving DecidableEq, Repr

/-- Abstract model of `bcrypt.GenerateFromPassword`: a deterministic tagging
of the password.  Salting is irrelevant to the verified properties; only the
matching relation between hash and password is used. -/
def bcryptHash (password : String) : String :=
  "bcrypt(" ++ password ++ ")"

/-- Abstract model of `bcrypt.CompareHashAndPassword` returning success:
the stored hash matches the presented password. -/
def bcryptMatches (storedHash password : String) : Bool :=
  storedHash == bcryptHash password

/-- Model of the login join:
`select c.user_id, c.password_hash from auth_credentials c join users u on
u.id = c.user_id where u.name=$1`.  Returns `(user_id, password_hash)`, or
`none` when the scan fails because no row matches. -/
def lookupCredByName (users : List UserRow) (creds : List Credential) (name : String) :
    Option (String × String) :=
  match users.find? (fun u => u.name == name) with
  | none => none
  | some u =>
    match creds.find? (fun c => c.userId == u.id) with
    | none => none
    | some c => some (u.id, c.passwordHash)

/-- Model of the credential upsert
`insert into auth_credentials ... ON CONFLICT (user_id) DO UPDATE SET
password_hash = excluded.password_hash`. -/
def upsertCredential (creds : List Credential) (userId hash : String) : List Credential :=
  if creds.any (fun c => c.userId == userId) then
    creds.map (fun c => if c.userId == userId then { c with passwordHash := hash } else c)
  else
    creds ++ [{ userId := userId, passwordHash := hash }]

/-! ## The auth service (server.go) -/

/-- Server configuration relevant to the verified handlers. -/
structure Server where
  jwtSecret : String
  jwtTTL : Nat
  refreshTTL : Nat
  deriving DecidableEq, Repr

/-- Outcome of the database interactions of one transaction: whether `Begin`,
the first `Exec`, the second `Exec`, and `Commit` succeed at the storage
layer.  (A primary-key violation on an insert is a failure of the insert
itself, modelled separately by `insertRow`.) -/
structure TxEnv where
  beginOk : Bool
  exec1Ok : Bool
  exec2Ok : Bool
  commitOk : Bool
  deriving DecidableEq, Repr

/-- A `TxEnv` in which every database step succeeds. -/
def txAllOk : TxEnv := { beginOk := true, exec1Ok := true, exec2Ok := true, commitOk := true }

/-- RefreshTokenRequest: the explicit field plus the `x-refresh-token`
metadata value propagated from the cookie by the gateway (`""` when absent). -/
structure RefreshTokenRequest where
  refreshToken : String
  metaRefreshToken : String
  deriving DecidableEq, Repr

/-- The token value `Refresh` operates on (server.go:171-181): the request
field if nonempty, otherwise the propagated metadata value. -/
def refreshTokenValue (req : RefreshTokenRequest) : String :=
  if req.refreshToken ≠ "" then req.refreshToken else req.metaRefreshToken

/-- LoginResponse, returned by both Login and Refresh. -/
structure LoginResponse where
  accessToken : JWT
  expiresAtUnix : Nat
  userId : String
  teamId : String
  refreshToken : String
  refreshExpiresAtUnix : Nat
  deriving DecidableEq, Repr

/-- Refresh (server.go:170-240): look up the presented token, reject unusable
rows, issue a new access token, and rotate the refresh token inside one
transaction.  `now` is the clock, `randBytes` the outcome of `crypto/rand`,
`team` the (best-effort, possibly empty) team-lookup result, and `tx` the
storage outcomes.  Returns the handler result together with the database
state visible after the call; uncommitted writes are discarded (rollback). -/
def Server.Refresh (s : Server) (db : RefreshDB) (req : RefreshTokenRequest) (now : Nat)
    (randBytes : Option (List Nat)) (team : String) (tx : TxEnv) :
    Except GrpcErr LoginResponse × RefreshDB :=
  if refreshTokenValue req = "" then
    (.error { code := .invalidArgument, msg := "refresh token required" }, db)
  else
    match findRow db (refreshTokenValue req) with
    | none => (.error { code := .unauthenticated, msg := "invalid refresh token" }, db)
    | some row =>
      if refreshRejects row now then
        (.error { code := .unauthenticated, msg := "refresh token expired or revoked" }, db)
      else if ¬ tx.beginOk then (.error { code := .internal, msg := "tx begin" }, db)
      else if ¬ tx.exec1Ok then (.error { code := .internal, msg := "revoke refresh" }, db)
      else if ¬ tx.exec2Ok then (.error { code := .internal, msg := "insert new refresh" }, db)
      else
        match insertRow (revokeAndReplace db (refreshTokenValue req) (generateOpaqueToken randBytes now))
            { token := generateOpaqueToken randBytes now, userId := row.userId,
              expiresAt := now + s.refreshTTL, revoked := false, replacedBy := none } with
        | none => (.error { code := .internal, msg := "insert new refresh" }, db)
        | some pending =>
          if ¬ tx.commitOk then (.error { code := .internal, msg := "tx commit" }, db)
          else
            (.ok { accessToken := issueAccessToken s.jwtSecret row.userId team now s.jwtTTL,
                   expiresAtUnix := now + s.jwtTTL, userId := row.userId, teamId := team,
                   refreshToken := generateOpaqueToken randBytes now,
                   refreshExpiresAtUnix := now + s.refreshTTL }, pending)

/-- LoginRequest. -/
structure LoginRequest where
  name : String
  password : String
  deriving DecidableEq, Repr

/-- Login (server.go:102-147): credential lookup by name, bcrypt comparison,
best-effort team lookup, access-token issuance, refresh-token insertion.
`insertOk` is the storage outcome of the refresh-token insert. -/
def Server.Login (s : Server) (users : List UserRow) (creds : List Credential) (db : RefreshDB)
    (req : LoginRequest) (now : Nat) (randBytes : Option (List Nat)) (team : String)
    (insertOk : Bool) : Except GrpcErr LoginResponse × RefreshDB :=
  if req.name = "" ∨ req.password = "" then
    (.error { code := .invalidArgument, msg := "name and password required" }, db)
  else
    match lookupCredByName users creds req.name with
    | none => (.error { code := .notFound, msg := "credentials not found" }, db)
    | some (userId, stored) =>
      if ¬ bcryptMatches stored req.password then
        (.error { code := .unauthenticated, msg := "invalid credentials" }, db)
      else if ¬ insertOk then (.error { code := .internal, msg := "save refresh" }, db)
      else
        match insertRow db
            { token := generateOpaqueToken randBytes now, userId := userId,
              expiresAt := now + s.refreshTTL, revoked := false, replacedBy := none } with
        | none => (.error { code := .internal, msg := "save refresh" }, db)
        | some db2 =>
          (.ok { accessToken := issueAccessToken s.jwtSecret userId team now s.jwtTTL,
                 expiresAtUnix := now + s.jwtTTL, userId := userId, teamId := team,
                 refreshToken := generateOpaqueToken randBytes now,
                 refreshExpiresAtUnix := now + s.refreshTTL }, db2)

/-- ValidateTokenResponse. -/
structure ValidateTokenResponse where
  userId : String
  teamId : String
  deriving DecidableEq, Repr

/-- ValidateToken (server.go:149-167).  `none` models an empty access-token
string; otherwise the token is parsed and verified (`parseHS256`) and the
subject must be nonempty. -/
def Server.ValidateToken (s : Server) (accessToken : Option JWT) (now : Nat) :
    Except GrpcErr ValidateTokenResponse :=
  match accessToken with
  | none => .error { code := .invalidArgument, msg := "token required" }
  | some tok =>
    match parseHS256 s.jwtSecret tok now with
    | none => .error { code := .unauthenticated, msg := "invalid token" }
    | some cl =>
      if cl.sub = "" then .error { code := .unauthenticated, msg := "invalid token" }
      else .ok { userId := cl.sub, teamId := cl.teamID }

/-- Combined auth-service database state: credentials plus the refresh ledger. -/
structure AuthDB where
  creds : List Credential
  tokens : RefreshDB
  deriving DecidableEq, Repr

/-- SetPassword (server.go:66-95): validate, hash, then in one transaction
upsert the credential row and revoke every unrevoked refresh token of the
user.  `hashOk` is the outcome of bcrypt hashing; `tx.exec1Ok` is the upsert,
`tx.exec2Ok` the revocation update.  (The upsert always affects exactly one
row, so the `RowsAffected()==0` branch is unreachable.)  Error paths leave the
database as it was (rollback). -/
def Server.SetPassword (db : AuthDB) (userId password : String) (hashOk : Bool) (tx : TxEnv) :
    Except GrpcErr Unit × AuthDB :=
  if userId = "" ∨ password = "" then
    (.error { code := .invalidArgument, msg := "user_id and password required" }, db)
  else if ¬ hashOk then (.error { code := .internal, msg := "hash password" }, db)
  else if ¬ tx.beginOk then (.error { code := .internal, msg := "tx begin" }, db)
  else if ¬ tx.exec1Ok then (.error { code := .internal, msg := "save password" }, db)
  else if ¬ tx.exec2Ok then (.error { code := .internal, msg := "revoke refresh tokens" }, db)
  else if ¬ tx.commitOk then (.error { code := .internal, msg := "tx commit" }, db)
  else
    (.ok (), { creds := upsertCredential db.creds userId (bcryptHash password),
               tokens := revokeAllFor db.tokens userId })

/-! ## Gateway middleware (services/gateway/internal/middleware/auth.go) -/

/-- Role strings of the gateway middleware. -/
def RoleUser : String := "user"

/-- Admin role string. -/
def RoleAdmin : String := "admin"

/-- Model of Go `strings.HasPrefix`. -/
def isPrefixChars : List Char → List Char → Bool
  | [], _ => true
  | _ :: _, [] => false
  | a :: as, b :: bs => a == b && isPrefixChars as bs

/-- String-level wrapper for `strings.HasPrefix(s, pre)`. -/
def goStartsWith (s pre : String) : Bool := isPrefixChars pre.data s.data

/-- Model of `strings.SplitN(s, " ", 2)`: split at the first space. -/
def splitFirstSpace : List Char → Option (List Char × List Char)
  | [] => none
  | c :: cs =>
    if c == ' ' then some ([], cs)
    else
      match splitFirstSpace cs with
      | none => none
      | some (a, b) => some (c :: a, b)

/-- The parts list produced by `strings.SplitN(s, " ", 2)`. -/
def splitN2Space (s : String) : List String :=
  match splitFirstSpace s.data with
  | none => [s]
  | some (a, b) => [String.mk a, String.mk b]

/-- Model of `strings.EqualFold` for the ASCII tokens compared here. -/
def goEqualFold (a b : String) : Bool := a.toLower == b.toLower

/-- Public path allow-list installed by `NewAuthMiddleware`. -/
def publicPaths : List String := ["/v1/auth/login", "/v1/auth/register", "/v1/auth/refresh"]

/-- An incoming HTTP request as the middleware sees it: URL path and the
`Authorization` header value (`""` when absent, as `Header.Get` returns). -/
structure GWRequest where
  path : String
  authorization : String
  deriving DecidableEq, Repr

/-- Outcome of the middleware on a request: either pass to the next handler
with the context values it set (`none` = not set), or reject with an HTTP
status and error message. -/
inductive GWOutcome where
  | next (userId : Option String) (teamId : Option String) (role : Option String)
  | reject (statusCode : Nat) (msg : String)
  deriving DecidableEq, Repr

/-- The gateway's `validateToken` (auth.go:95-116): parse and verify under
the shared secret, require a nonempty subject, and default an absent role to
`user`.  `decode` models deserialization of the compact token string into a
JWT (`none` = unparsable string). -/
def validateToken (secret : String) (decode : String → Option JWT) (tokenString : String)
    (now : Nat) : Option Claims :=
  match decode tokenString with
  | none => none
  | some tok =>
    match parseHS256 secret tok now with
    | none => none
    | some cl =>
      if cl.sub = "" then none
      else if cl.role = "" then some { cl with role := RoleUser }
      else some cl

/-- The middleware's `Handler` (auth.go:50-93): public-path bypass,
pass-through when no Authorization header is present, 401 on a malformed
header or invalid token, 403 for a non-admin token on an admin path, and
context injection on success. -/
def Handler (secret : String) (decode : String → Option JWT) (req : GWRequest) (now : Nat) :
    GWOutcome :=
  if publicPaths.any (fun p => goStartsWith req.path p) then .next none none none
  else if req.authorization = "" then .next none none none
  else
    let parts := splitN2Space req.authorization
    if parts.length ≠ 2 ∨ ¬ goEqualFold (parts.headD "") "Bearer" ∨ parts.getD 1 "" = "" then
      .reject 401 "invalid_authorization_header"
    else
      match validateToken secret decode (parts.getD 1 "") now with
      | none => .reject 401 "invalid_token"
      | some claims =>
        if goStartsWith req.path "/v1/admin/" ∧ claims.role ≠ RoleAdmin then
          .reject 403 "admin_access_required"
        else
          .next (some claims.sub)
            (if claims.teamID ≠ "" then some claims.teamID else none)
            (some claims.role)

/-! ## Helper lemmas -/

/-- Marking a row as rotated out, as `revokeAndReplace` does to matching rows. -/
def markReplaced (newTok : String) (r : RefreshRow) : RefreshRow :=
  { r with revoked := true, replacedBy := some newTok }

lemma revokeAndReplace_eq_map (db : RefreshDB) (t newTok : String) :
    revokeAndReplace db t newTok =
      db.map (fun r => if r.token == t then markReplaced newTok r else r) := rfl

lemma findRow_revokeAndReplace (db : RefreshDB) (t newTok t' : String) :
    findRow (revokeAndReplace db t newTok) t' =
      (findRow db t').map (fun r => if r.token == t then markReplaced newTok r else r) := by
  unfold findRow
  rw [revokeAndReplace_eq_map, List.find?_map]
  have hp : ((fun r : RefreshRow => r.token == t') ∘
      fun r => if r.token == t then markReplaced newTok r else r) =
      fun r : RefreshRow => r.token == t' := by
    funext r
    by_cases h : r.token == t <;> simp [h, markReplaced, Function.comp]
  rw [hp]

lemma findRow_revokeAllFor (db : RefreshDB) (u t : String) :
    findRow (revokeAllFor db u) t =
      (findRow db t).map
        (fun r => if r.userId == u && !r.revoked then { r with revoked := true } else r) := by
  unfold findRow revokeAllFor
  rw [List.find?_map]
  have hp : ((fun r : RefreshRow => r.token == t) ∘
      fun r => if r.userId == u && !r.revoked then { r with revoked := true } else r) =
      fun r : RefreshRow => r.token == t := by
    funext r
    by_cases h : r.userId == u && !r.revoked <;> simp [h, Function.comp]
  rw [hp]

lemma findRow_append (db1 db2 : RefreshDB) (t : String) :
    findRow (db1 ++ db2) t = (findRow db1 t).or (findRow db2 t) := List.find?_append

lemma insertRow_eq_some {db : RefreshDB} {r : RefreshRow} {db2 : RefreshDB}
    (h : insertRow db r = some db2) :
    db.any (fun x => x.token == r.token) = false ∧ db2 = db ++ [r] := by
  unfold insertRow at h
  split at h
  · cases h
  · next hany =>
      cases h
      exact ⟨by simpa using hany, rfl⟩

/-- Success characterization of `Server.Refresh`: what must have held of the
pre-state and what the post-state and response look like. -/
lemma refresh_ok_spec {s : Server} {db : RefreshDB} {req : RefreshTokenRequest} {now : Nat}
    {randBytes : Option (List Nat)} {team : String} {tx : TxEnv} {resp : LoginResponse}
    {db' : RefreshDB} (h : s.Refresh db req now randBytes team tx = (.ok resp, db')) :
    refreshTokenValue req ≠ "" ∧
    ∃ row, findRow db (refreshTokenValue req) = some row ∧
      refreshRejects row now = false ∧
      resp = { accessToken := issueAccessToken s.jwtSecret row.userId team now s.jwtTTL,
               expiresAtUnix := now + s.jwtTTL, userId := row.userId, teamId := team,
               refreshToken := generateOpaqueToken randBytes now,
               refreshExpiresAtUnix := now + s.refreshTTL } ∧
      (revokeAndReplace db (refreshTokenValue req) (generateOpaqueToken randBytes now)).any
          (fun x => x.token == generateOpaqueToken randBytes now) = false ∧
      db' = revokeAndReplace db (refreshTokenValue req) (generateOpaqueToken randBytes now) ++
            [{ token := generateOpaqueToken randBytes now, userId := row.userId,
               expiresAt := now + s.refreshTTL, revoked := false, replacedBy := none }] := by
  unfold Server.Refresh at h
  split at h
  · simp at h
  · next htv =>
      split at h
      · simp at h
      · next row hfind =>
          split at h
          · simp at h
          · next hrej =>
              split at h
              · simp at h
              · split at h
                · simp at h
                · split at h
                  · simp at h
                  · split at h
                    · simp at h
                    · next pending hins =>
                        split at h
                        · simp at h
                        · simp only [Prod.mk.injEq, Except.ok.injEq] at h
                          obtain ⟨hresp, hdb⟩ := h
                          obtain ⟨hfresh, hpend⟩ := insertRow_eq_some hins
                          refine ⟨htv, row, hfind, ?_, hresp.symm, hfresh, ?_⟩
                          · exact Bool.eq_false_iff.mpr hrej
                          · rw [← hdb, hpend]

/-- Every failing `Server.Refresh` call leaves the ledger unchanged
(rollback semantics). -/
lemma refresh_shape (s : Server) (db : RefreshDB) (req : RefreshTokenRequest) (now : Nat)
    (randBytes : Option (List Nat)) (team : String) (tx : TxEnv) :
    (∃ e, s.Refresh db req now randBytes team tx = (.error e, db)) ∨
    (∃ resp db2, s.Refresh db req now randBytes team tx = (.ok resp, db2)) := by
  unfold Server.Refresh
  repeat' split
  all_goals first
    | exact .inl ⟨_, rfl⟩
    | exact .inr ⟨_, _, rfl⟩

/-- Every failing `Server.SetPassword` call leaves the database unchanged. -/
lemma setPassword_shape (db : AuthDB) (userId password : String) (hashOk : Bool) (tx : TxEnv) :
    (∃ e, Server.SetPassword db userId password hashOk tx = (.error e, db)) ∨
    Server.SetPassword db userId password hashOk tx =
      (.ok (), { creds := upsertCredential db.creds userId (bcryptHash password),
                 tokens := revokeAllFor db.tokens userId }) := by
  unfold Server.SetPassword
  repeat' split
  all_goals first
    | exact .inl ⟨_, rfl⟩
    | exact .inr rfl

/-- After the credential upsert, the stored hash for the user is the new one. -/
lemma find?_upsertCredential (creds : List Credential) (userId hash : String) :
    ((upsertCredential creds userId hash).find? (fun c => c.userId == userId)).map
      (fun c => c.passwordHash) = some hash := by
  unfold upsertCredential
  split
  · next hany =>
      induction creds with
      | nil => simp at hany
      | cons c cs ih =>
        by_cases hc : c.userId == userId
        · simp only [List.map_cons, if_pos hc]
          rw [List.find?_cons_of_pos _ (by exact hc)]
          rfl
        · simp only [List.map_cons, if_neg hc]
          rw [List.find?_cons_of_neg _ (by exact hc)]
          have hany' : cs.any (fun c => c.userId == userId) = true := by
            simp only [List.any_cons] at hany
            rcases (Bool.or_eq_true _ _).mp hany with h1 | h2
            · exact absurd h1 hc
            · exact h2
          exact ih hany'
  · next hany =>
      rw [List.find?_append]
      have hnone : creds.find? (fun c => c.userId == userId) = none := by
        rw [List.find?_eq_none]
        intro x hx hpx
        exact hany ((List.any_eq_true ..).mpr ⟨x, hx, hpx⟩)
      rw [hnone]
      simp

/-- Every row of the user is revoked after `revokeAllFor`. -/
lemma revokeAllFor_userId_revoked (db : RefreshDB) (u : String) :
    ∀ r ∈ revokeAllFor db u, r.userId = u → r.revoked = true := by
  intro r hr hu
  unfold revokeAllFor at hr
  obtain ⟨x, hx, hfx⟩ := List.mem_map.mp hr
  by_cases hcond : x.userId == u && !x.revoked
  · rw [if_pos hcond] at hfx
    rw [← hfx]
  · rw [if_neg hcond] at hfx
    subst hfx
    have hbeq : (x.userId == u) = true := by simp [hu]
    cases hxr : x.revoked
    · exact absurd (by simp [hbeq, hxr]) hcond
    · rfl

/-- A Refresh call that finds a row failing the usability check returns
`Unauthenticated` and performs no write. -/
lemma refresh_rejects_found (s : Server) (db : RefreshDB) (req : RefreshTokenRequest)
    (now : Nat) (randBytes : Option (List Nat)) (team : String) (tx : TxEnv) (r : RefreshRow)
    (htv : refreshTokenValue req ≠ "")
    (hfind : findRow db (refreshTokenValue req) = some r)
    (hrej : refreshRejects r now = true) :
    s.Refresh db req now randBytes team tx =
      (.error { code := .unauthenticated, msg := "refresh token expired or revoked" }, db) := by
  unfold Server.Refresh
  rw [if_neg htv, hfind]
  simp [hrej]

/-! ## Claim theorems -/

/-- Claim C4: issue/validate round-trip — for any user id `u ≠ ""` (the only
kind the service issues tokens for), optional team id `t`, and any clock time
strictly before the token's `exp`, validating an access token issued for
`(u, t)` under the same HMAC-SHA256 secret returns exactly
`{user_id := u, team_id := t}`. -/
theorem validate_issued_token_roundtrip (s : Server) (u t : String) (iat now : Nat)
    (hu : u ≠ "") (hnow : now < iat + s.jwtTTL) :
    s.ValidateToken (some (issueAccessToken s.jwtSecret u t iat s.jwtTTL)) now =
      .ok { userId := u, teamId := t } := by
  unfold Server.ValidateToken issueAccessToken signJWT claimsWithTeam parseHS256
  simp [hnow, hu]

/-- Witness for C4 at a concrete server, user, team and clock. -/
theorem validate_issued_token_roundtrip_witness :
    Server.ValidateToken { jwtSecret := "sec", jwtTTL := 3600, refreshTTL := 720 }
        (some (issueAccessToken "sec" "alice" "team1" 0 3600)) 10 =
      .ok { userId := "alice", teamId := "team1" } :=
  validate_issued_token_roundtrip
    { jwtSecret := "sec", jwtTTL := 3600, refreshTTL := 720 } "alice" "team1" 0 10
    (by decide) (by decide)

/-- Claim C1: refresh-token rotation is single-use.  If a Refresh call
presenting token value `t` succeeds, then in the resulting ledger the
presented row is revoked with `replaced_by_token` set to the new token, and a
second Refresh call presenting the same `t` — at any later clock, random
outcome, team result and transaction outcome — returns `Unauthenticated`
("refresh token expired or revoked"). -/
theorem refresh_rotation_single_use (s : Server) (db : RefreshDB) (req : RefreshTokenRequest)
    (now : Nat) (randBytes : Option (List Nat)) (team : String) (tx : TxEnv)
    (resp : LoginResponse) (db' : RefreshDB)
    (h : s.Refresh db req now randBytes team tx = (.ok resp, db'))
    (now' : Nat) (randBytes' : Option (List Nat)) (team' : String) (tx' : TxEnv) :
    (∃ r', findRow db' (refreshTokenValue req) = some r' ∧ r'.revoked = true ∧
       r'.replacedBy = some resp.refreshToken) ∧
    s.Refresh db' req now' randBytes' team' tx' =
      (.error { code := .unauthenticated, msg := "refresh token expired or revoked" }, db') := by
  obtain ⟨htv, row, hfind, hrej, hresp, hfresh, hdb'⟩ := refresh_ok_spec h
  have hfind2 : db.find? (fun r => r.token == refreshTokenValue req) = some row := hfind
  have hrowtok : row.token = refreshTokenValue req := by
    have := List.find?_some hfind2
    simpa using this
  have hfind' : findRow db' (refreshTokenValue req) =
      some (markReplaced (generateOpaqueToken randBytes now) row) := by
    rw [hdb', findRow_append, findRow_revokeAndReplace, hfind]
    simp [hrowtok]
  have hrtok : resp.refreshToken = generateOpaqueToken randBytes now := by
    rw [hresp]
  refine ⟨⟨markReplaced (generateOpaqueToken randBytes now) row, hfind', rfl,
    by rw [hrtok]; rfl⟩, ?_⟩
  unfold Server.Refresh
  rw [if_neg htv, hfind']
  simp [refreshRejects, markReplaced]

/-- Witness for C1: a concrete successful rotation followed by a replayed
second call that is rejected. -/
theorem refresh_rotation_single_use_witness :
    (∃ r', findRow [{ token := "r0", userId := "alice", expiresAt := 1000, revoked := true,
                      replacedBy := some "10" },
                    { token := "10", userId := "alice", expiresAt := 610, revoked := false,
                      replacedBy := none }]
        (refreshTokenValue { refreshToken := "r0", metaRefreshToken := "" }) = some r' ∧
      r'.revoked = true ∧
      r'.replacedBy = some (LoginResponse.refreshToken
        { accessToken := issueAccessToken "sec" "alice" "" 10 60, expiresAtUnix := 70,
          userId := "alice", teamId := "", refreshToken := "10", refreshExpiresAtUnix := 610 })) ∧
    Server.Refresh { jwtSecret := "sec", jwtTTL := 60, refreshTTL := 600 }
        [{ token := "r0", userId := "alice", expiresAt := 1000, revoked := true,
           replacedBy := some "10" },
         { token := "10", userId := "alice", expiresAt := 610, revoked := false,
           replacedBy := none }]
        { refreshToken := "r0", metaRefreshToken := "" } 20 none "" txAllOk =
      (.error { code := .unauthenticated, msg := "refresh token expired or revoked" },
       [{ token := "r0", userId := "alice", expiresAt := 1000, revoked := true,
          replacedBy := some "10" },
        { token := "10", userId := "alice", expiresAt := 610, revoked := false,
          replacedBy := none }]) :=
  refresh_rotation_single_use { jwtSecret := "sec", jwtTTL := 60, refreshTTL := 600 }
    [{ token := "r0", userId := "alice", expiresAt := 1000, revoked := false, replacedBy := none }]
    { refreshToken := "r0", metaRefreshToken := "" } 10 none "" txAllOk
    { accessToken := issueAccessToken "sec" "alice" "" 10 60, expiresAtUnix := 70,
      userId := "alice", teamId := "", refreshToken := "10", refreshExpiresAtUnix := 610 }
    [{ token := "r0", userId := "alice", expiresAt := 1000, revoked := true,
       replacedBy := some "10" },
     { token := "10", userId := "alice", expiresAt := 610, revoked := false, replacedBy := none }]
    (by rfl) 20 none "" txAllOk

/-- Claim C10: a successful Refresh preserves the user identity — the
response's `user_id`, the subject of the newly issued access token, and the
`user_id` of the newly inserted refresh-token row all equal the `user_id`
stored on the presented refresh token. -/
theorem refresh_preserves_user (s : Server) (db : RefreshDB) (req : RefreshTokenRequest)
    (now : Nat) (randBytes : Option (List Nat)) (team : String) (tx : TxEnv)
    (resp : LoginResponse) (db' : RefreshDB) (row : RefreshRow)
    (h : s.Refresh db req now randBytes team tx = (.ok resp, db'))
    (hfind : findRow db (refreshTokenValue req) = some row) :
    resp.userId = row.userId ∧
    resp.accessToken.claims.sub = row.userId ∧
    ∃ r', findRow db' resp.refreshToken = some r' ∧ r'.userId = row.userId := by
  obtain ⟨htv, row0, hfind0, hrej, hresp, hfresh, hdb'⟩ := refresh_ok_spec h
  have hrow : row0 = row := by
    rw [hfind0] at hfind
    exact (Option.some.injEq _ _ ▸ hfind)
  subst hrow
  have hrtok : resp.refreshToken = generateOpaqueToken randBytes now := by rw [hresp]
  refine ⟨by rw [hresp], by rw [hresp]; rfl, ?_⟩
  refine ⟨{ token := generateOpaqueToken randBytes now, userId := row0.userId,
            expiresAt := now + s.refreshTTL, revoked := false, replacedBy := none },
          ?_, rfl⟩
  rw [hdb', hrtok]
  unfold findRow
  rw [List.find?_append]
  have hnone : (revokeAndReplace db (refreshTokenValue req)
      (generateOpaqueToken randBytes now)).find?
      (fun r => r.token == generateOpaqueToken randBytes now) = none := by
    rw [List.find?_eq_none]
    intro x hx
    have := (List.any_eq_false ..).mp hfresh x hx
    simpa using this
  rw [hnone]
  simp [Option.or]

/-- Witness for C10 at a concrete rotation. -/
theorem refresh_preserves_user_witness :
    LoginResponse.userId
        { accessToken := issueAccessToken "sec" "alice" "" 10 60, expiresAtUnix := 70,
          userId := "alice", teamId := "", refreshToken := "10", refreshExpiresAtUnix := 610 } =
      RefreshRow.userId
        { token := "r0", userId := "alice", expiresAt := 1000, revoked := false,
          replacedBy := none } ∧
    (issueAccessToken "sec" "alice" "" 10 60).claims.sub =
      RefreshRow.userId
        { token := "r0", userId := "alice", expiresAt := 1000, revoked := false,
          replacedBy := none } ∧
    ∃ r', findRow
        [{ token := "r0", userId := "alice", expiresAt := 1000, revoked := true,
           replacedBy := some "10" },
         { token := "10", userId := "alice", expiresAt := 610, revoked := false,
           replacedBy := none }] "10" = some r' ∧
      r'.userId = RefreshRow.userId
        { token := "r0", userId := "alice", expiresAt := 1000, revoked := false,
          replacedBy := none } :=
  refresh_preserves_user { jwtSecret := "sec", jwtTTL := 60, refreshTTL := 600 }
    [{ token := "r0", userId := "alice", expiresAt := 1000, revoked := false, replacedBy := none }]
    { refreshToken := "r0", metaRefreshToken := "" } 10 none "" txAllOk
    { accessToken := issueAccessToken "sec" "alice" "" 10 60, expiresAtUnix := 70,
      userId := "alice", teamId := "", refreshToken := "10", refreshExpiresAtUnix := 610 }
    [{ token := "r0", userId := "alice", expiresAt := 1000, revoked := true,
       replacedBy := some "10" },
     { token := "10", userId := "alice", expiresAt := 610, revoked := false, replacedBy := none }]
    { token := "r0", userId := "alice", expiresAt := 1000, revoked := false, replacedBy := none }
    (by rfl) (by rfl)

/-- Claim C2: rotation is atomic.  For every storage outcome: if the call
fails, the ledger visible afterwards is exactly the pre-call ledger (so the
presented token is exactly as usable or unusable as before); if it succeeds,
the presented row is revoked with `replaced_by_token` pointing at the
replacement and the replacement row is present and unrevoked; and in no
outcome is the presented row observable as revoked-without-replacement. -/
theorem refresh_rotation_atomic (s : Server) (db : RefreshDB) (req : RefreshTokenRequest)
    (now : Nat) (randBytes : Option (List Nat)) (team : String) (tx : TxEnv) (row : RefreshRow)
    (hfind : findRow db (refreshTokenValue req) = some row)
    (hrow : ¬ (row.revoked = true ∧ row.replacedBy = none)) :
    ((∃ e, (s.Refresh db req now randBytes team tx).1 = .error e) →
       (s.Refresh db req now randBytes team tx).2 = db) ∧
    (∀ resp, (s.Refresh db req now randBytes team tx).1 = .ok resp →
       findRow (s.Refresh db req now randBytes team tx).2 (refreshTokenValue req) =
         some (markReplaced resp.refreshToken row) ∧
       findRow (s.Refresh db req now randBytes team tx).2 resp.refreshToken =
         some { token := resp.refreshToken, userId := row.userId,
                expiresAt := now + s.refreshTTL, revoked := false, replacedBy := none }) ∧
    (∀ r', findRow (s.Refresh db req now randBytes team tx).2 (refreshTokenValue req) = some r' →
       ¬ (r'.revoked = true ∧ r'.replacedBy = none)) := by
  have hfind2 : db.find? (fun r => r.token == refreshTokenValue req) = some row := hfind
  have hrowtok : row.token = refreshTokenValue req := by
    have := List.find?_some hfind2
    simpa using this
  rcases refresh_shape s db req now randBytes team tx with ⟨e, hout⟩ | ⟨resp, db2, hout⟩
  · refine ⟨fun _ => by rw [hout], fun resp hok => ?_, fun r' hr' => ?_⟩
    · rw [hout] at hok
      simp at hok
    · rw [hout] at hr'
      simp only at hr'
      rw [hfind] at hr'
      cases hr'
      exact hrow
  · obtain ⟨htv, row0, hfind0, hrej, hresp, hfresh, hdb'⟩ := refresh_ok_spec hout
    have hrow0 : row0 = row := by
      rw [hfind0] at hfind
      exact Option.some.inj hfind
    subst hrow0
    have hrtok : resp.refreshToken = generateOpaqueToken randBytes now := by rw [hresp]
    have hfindold : findRow db2 (refreshTokenValue req) =
        some (markReplaced (generateOpaqueToken randBytes now) row0) := by
      rw [hdb', findRow_append, findRow_revokeAndReplace, hfind0]
      simp [hrowtok]
    have hfindnew : findRow db2 (generateOpaqueToken randBytes now) =
        some { token := generateOpaqueToken randBytes now, userId := row0.userId,
               expiresAt := now + s.refreshTTL, revoked := false, replacedBy := none } := by
      rw [hdb', findRow_append]
      have hnone : findRow (revokeAndReplace db (refreshTokenValue req)
          (generateOpaqueToken randBytes now)) (generateOpaqueToken randBytes now) = none := by
        unfold findRow
        rw [List.find?_eq_none]
        intro x hx
        have := (List.any_eq_false ..).mp hfresh x hx
        simpa using this
      rw [hnone]
      simp [findRow, Option.or]
    refine ⟨fun he => ?_, fun resp' hok => ?_, fun r' hr' => ?_⟩
    · obtain ⟨e, he⟩ := he
      rw [hout] at he
      simp at he
    · rw [hout] at hok
      simp only at hok
      have hresp' : resp' = resp := (Except.ok.inj hok).symm
      subst hresp'
      rw [hout]
      simp only
      rw [hrtok]
      exact ⟨hfindold, hfindnew⟩
    · rw [hout] at hr'
      simp only at hr'
      rw [hfindold] at hr'
      cases hr'
      intro hc
      simp [markReplaced] at hc
/-- Witness for C2: a concrete rotation whose insert is forced to fail leaves
the ledger unchanged (checked via the first conjunct). -/
theorem refresh_rotation_atomic_witness :
    (Server.Refresh { jwtSecret := "sec", jwtTTL := 60, refreshTTL := 600 }
        [{ token := "r0", userId := "alice", expiresAt := 1000, revoked := false,
           replacedBy := none }]
        { refreshToken := "r0", metaRefreshToken := "" } 10 none ""
        { beginOk := true, exec1Ok := true, exec2Ok := false, commitOk := true }).2 =
      [{ token := "r0", userId := "alice", expiresAt := 1000, revoked := false,
         replacedBy := none }] :=
  (refresh_rotation_atomic { jwtSecret := "sec", jwtTTL := 60, refreshTTL := 600 }
      [{ token := "r0", userId := "alice", expiresAt := 1000, revoked := false,
         replacedBy := none }]
      { refreshToken := "r0", metaRefreshToken := "" } 10 none ""
      { beginOk := true, exec1Ok := true, exec2Ok := false, commitOk := true }
      { token := "r0", userId := "alice", expiresAt := 1000, revoked := false, replacedBy := none }
      (by rfl) (by simp)).1
    ⟨{ code := .internal, msg := "insert new refresh" }, by rfl⟩

/-- Claim C3: SetPassword fails with InvalidArgument when either field is
empty; on any failure both password and session state are unchanged
(all-or-nothing); on success the stored hash for the user is replaced by the
hash of the new password and, in the same transaction, every refresh token of
that user is revoked, so every refresh token previously issued to the user
subsequently fails Refresh with `Unauthenticated`. -/
theorem setPassword_invalidates_sessions (db : AuthDB) (userId password : String)
    (hashOk : Bool) (tx : TxEnv) :
    (userId = "" ∨ password = "" →
       Server.SetPassword db userId password hashOk tx =
         (.error { code := .invalidArgument, msg := "user_id and password required" }, db)) ∧
    ((∃ e, (Server.SetPassword db userId password hashOk tx).1 = .error e) →
       (Server.SetPassword db userId password hashOk tx).2 = db) ∧
    ((Server.SetPassword db userId password hashOk tx).1 = .ok () →
       (((Server.SetPassword db userId password hashOk tx).2.creds.find?
           (fun c => c.userId == userId)).map (fun c => c.passwordHash) =
         some (bcryptHash password)) ∧
       (∀ r ∈ (Server.SetPassword db userId password hashOk tx).2.tokens,
          r.userId = userId → r.revoked = true) ∧
       (∀ (s : Server) (req : RefreshTokenRequest) (now' : Nat) (rb' : Option (List Nat))
          (team' : String) (tx' : TxEnv) (r : RefreshRow),
          refreshTokenValue req ≠ "" →
          findRow db.tokens (refreshTokenValue req) = some r → r.userId = userId →
          s.Refresh (Server.SetPassword db userId password hashOk tx).2.tokens req now' rb'
              team' tx' =
            (.error { code := .unauthenticated, msg := "refresh token expired or revoked" },
             (Server.SetPassword db userId password hashOk tx).2.tokens))) := by
  refine ⟨fun hempty => ?_, ?_, ?_⟩
  · unfold Server.SetPassword
    rw [if_pos hempty]
  · rcases setPassword_shape db userId password hashOk tx with ⟨e, hout⟩ | hout
    · intro _
      rw [hout]
    · intro ⟨e, he⟩
      rw [hout] at he
      simp at he
  · rcases setPassword_shape db userId password hashOk tx with ⟨e, hout⟩ | hout
    · intro hok
      rw [hout] at hok
      simp at hok
    · intro _
      have hc2 : (Server.SetPassword db userId password hashOk tx).2.creds =
          upsertCredential db.creds userId (bcryptHash password) := by rw [hout]
      have ht2 : (Server.SetPassword db userId password hashOk tx).2.tokens =
          revokeAllFor db.tokens userId := by rw [hout]
      refine ⟨?_, ?_, ?_⟩
      · rw [hc2]
        exact find?_upsertCredential db.creds userId (bcryptHash password)
      · rw [ht2]
        exact revokeAllFor_userId_revoked db.tokens userId
      · intro s req now' rb' team' tx' r htv hfindr hru
        rw [ht2]
        have hfind' : findRow (revokeAllFor db.tokens userId) (refreshTokenValue req) =
            some (if r.userId == userId && !r.revoked then { r with revoked := true } else r) := by
          rw [findRow_revokeAllFor, hfindr]
          rfl
        have hrej : refreshRejects
            (if r.userId == userId && !r.revoked then { r with revoked := true } else r)
            now' = true := by
          by_cases hc : r.userId == userId && !r.revoked
          · rw [if_pos hc]
            simp [refreshRejects]
          · rw [if_neg hc]
            have hrrev : r.revoked = true := by
              have hbeq : (r.userId == userId) = true := by simp [hru]
              cases hxr : r.revoked
              · exact absurd (by simp [hbeq, hxr]) hc
              · rfl
            simp [refreshRejects, hrrev]
        exact refresh_rejects_found s _ req now' rb' team' tx' _ htv hfind' hrej

/-- Witness for C3: after a concrete password change, the user's previously
issued refresh token is rejected by Refresh. -/
theorem setPassword_invalidates_sessions_witness :
    Server.Refresh { jwtSecret := "sec", jwtTTL := 60, refreshTTL := 600 }
        (Server.SetPassword
          { creds := [{ userId := "alice", passwordHash := "bcrypt(pw1)" }],
            tokens := [{ token := "r1", userId := "alice", expiresAt := 1000, revoked := false,
                         replacedBy := none }] }
          "alice" "pw2" true txAllOk).2.tokens
        { refreshToken := "r1", metaRefreshToken := "" } 5 none "" txAllOk =
      (.error { code := .unauthenticated, msg := "refresh token expired or revoked" },
       (Server.SetPassword
          { creds := [{ userId := "alice", passwordHash := "bcrypt(pw1)" }],
            tokens := [{ token := "r1", userId := "alice", expiresAt := 1000, revoked := false,
                         replacedBy := none }] }
          "alice" "pw2" true txAllOk).2.tokens) :=
  ((setPassword_invalidates_sessions
      { creds := [{ userId := "alice", passwordHash := "bcrypt(pw1)" }],
        tokens := [{ token := "r1", userId := "alice", expiresAt := 1000, revoked := false,
                     replacedBy := none }] }
      "alice" "pw2" true txAllOk).2.2 (by rfl)).2.2
    { jwtSecret := "sec", jwtTTL := 60, refreshTTL := 600 }
    { refreshToken := "r1", metaRefreshToken := "" } 5 none "" txAllOk
    { token := "r1", userId := "alice", expiresAt := 1000, revoked := false, replacedBy := none }
    (by decide) (by rfl) (by rfl)

/-- Usability predicate amended to match the code: Go's `time.Now().After` is
strict, so a token is still usable at the instant `now = expires_at`; a row
counts as replaced when `coalesce(replaced_by_token,'')` is nonempty. -/
def amendedUsable (r : RefreshRow) (now : Nat) : Bool :=
  !r.revoked && decide (now ≤ r.expiresAt) && (r.replacedBy.getD "" == "")

/-- Counterexample to claim C5: at the instant `now() = expires_at` the claim
says the token is not usable, but the code's check passes the row (usable per
the spec predicate it is not) and a full Refresh call succeeds. -/
theorem usable_at_expiry_counterexample :
    specUsable { token := "t0", userId := "u0", expiresAt := 100, revoked := false,
                 replacedBy := none } 100 = false ∧
    refreshRejects { token := "t0", userId := "u0", expiresAt := 100, revoked := false,
                     replacedBy := none } 100 = false ∧
    ∃ resp, (Server.Refresh { jwtSecret := "sec", jwtTTL := 60, refreshTTL := 600 }
        [{ token := "t0", userId := "u0", expiresAt := 100, revoked := false,
           replacedBy := none }]
        { refreshToken := "t0", metaRefreshToken := "" } 100 none "" txAllOk).1 = .ok resp :=
  ⟨by decide, by decide, ⟨_, rfl⟩⟩

/-- Claim C5 (amended): a stored refresh token is usable exactly when
`revoked = false` AND `now() ≤ expires_at` AND `replaced_by_token` is NULL
(read back as the empty string); Refresh rejects any stored token failing this
predicate with `Unauthenticated` ("refresh token expired or revoked") while
performing no write, so expiry is enforced lazily at lookup time; a token
becomes logically expired only strictly after `expires_at`. -/
theorem refresh_usability_amended (r : RefreshRow) (now : Nat) :
    (refreshRejects r now = false ↔ amendedUsable r now = true) ∧
    (∀ (s : Server) (db : RefreshDB) (req : RefreshTokenRequest)
       (randBytes : Option (List Nat)) (team : String) (tx : TxEnv),
       refreshTokenValue req ≠ "" →
       findRow db (refreshTokenValue req) = some r →
       refreshRejects r now = true →
       s.Refresh db req now randBytes team tx =
         (.error { code := .unauthenticated, msg := "refresh token expired or revoked" }, db)) := by
  constructor
  · unfold refreshRejects amendedUsable
    cases hr : r.revoked <;> cases hg : r.replacedBy.getD "" == "" <;>
      simp [bne, hg, Nat.not_lt]
  · intro s db req randBytes team tx htv hfind hrej
    exact refresh_rejects_found s db req now randBytes team tx r htv hfind hrej

/-- Witness for C5 (amended): a concrete revoked row is rejected by a
concrete Refresh call that leaves the ledger unchanged. -/
theorem refresh_usability_amended_witness :
    (refreshRejects { token := "t1", userId := "u0", expiresAt := 100, revoked := true,
                      replacedBy := none } 50 = false ↔
     amendedUsable { token := "t1", userId := "u0", expiresAt := 100, revoked := true,
                     replacedBy := none } 50 = true) ∧
    Server.Refresh { jwtSecret := "sec", jwtTTL := 60, refreshTTL := 600 }
        [{ token := "t1", userId := "u0", expiresAt := 100, revoked := true,
           replacedBy := none }]
        { refreshToken := "t1", metaRefreshToken := "" } 50 none "" txAllOk =
      (.error { code := .unauthenticated, msg := "refresh token expired or revoked" },
       [{ token := "t1", userId := "u0", expiresAt := 100, revoked := true,
          replacedBy := none }]) :=
  And.intro
    (refresh_usability_amended
      { token := "t1", userId := "u0", expiresAt := 100, revoked := true, replacedBy := none }
      50).1
    ((refresh_usability_amended
      { token := "t1", userId := "u0", expiresAt := 100, revoked := true, replacedBy := none }
      50).2
      { jwtSecret := "sec", jwtTTL := 60, refreshTTL := 600 }
      [{ token := "t1", userId := "u0", expiresAt := 100, revoked := true, replacedBy := none }]
      { refreshToken := "t1", metaRefreshToken := "" } none "" txAllOk
      (by decide) (by rfl) (by decide))

/-- Claim C6 evaluation: when secure random generation fails,
`generateOpaqueToken` does NOT fail the request — it falls back to a
time-based token (the decimal nanosecond clock), and refresh-token issuance
proceeds with that weak token. -/
theorem generateOpaqueToken_fallback :
    generateOpaqueToken none 12345 = "12345" ∧
    ∃ resp db', Server.Refresh { jwtSecret := "sec", jwtTTL := 60, refreshTTL := 600 }
        [{ token := "r0", userId := "alice", expiresAt := 1000, revoked := false,
           replacedBy := none }]
        { refreshToken := "r0", metaRefreshToken := "" } 10 none "" txAllOk =
        (.ok resp, db') ∧
      resp.refreshToken = "10" :=
  ⟨rfl, _, _, rfl, rfl⟩

/-- Claim C7: during Login an unknown username (no matching credential row)
fails with `NotFound` while a wrong password for an existing user fails with
`Unauthenticated`; the two failure cases carry distinct status codes, so the
caller can tell them apart. -/
theorem login_distinguishes_failures (s : Server) (users : List UserRow)
    (creds : List Credential) (db : RefreshDB) (req : LoginRequest) (now : Nat)
    (randBytes : Option (List Nat)) (team : String) (insertOk : Bool)
    (hname : req.name ≠ "") (hpw : req.password ≠ "") :
    (lookupCredByName users creds req.name = none →
       s.Login users creds db req now randBytes team insertOk =
         (.error { code := .notFound, msg := "credentials not found" }, db)) ∧
    (∀ uid stored, lookupCredByName users creds req.name = some (uid, stored) →
       bcryptMatches stored req.password = false →
       s.Login users creds db req now randBytes team insertOk =
         (.error { code := .unauthenticated, msg := "invalid credentials" }, db)) ∧
    Code.notFound ≠ Code.unauthenticated := by
  have hnot : ¬ (req.name = "" ∨ req.password = "") := by
    rintro (h | h)
    · exact hname h
    · exact hpw h
  refine ⟨fun hnone => ?_, fun uid stored hsome hbad => ?_, by decide⟩
  · unfold Server.Login
    rw [if_neg hnot, hnone]
  · unfold Server.Login
    rw [if_neg hnot, hsome]
    simp [hbad]

/-- Witness for C7: an unknown name yields NotFound; a known name with the
wrong password yields Unauthenticated. -/
theorem login_distinguishes_failures_witness :
    Server.Login { jwtSecret := "sec", jwtTTL := 60, refreshTTL := 600 }
        [{ id := "u1", name := "alice" }]
        [{ userId := "u1", passwordHash := "bcrypt(pw1)" }] []
        { name := "alice", password := "wrong" } 5 none "" true =
      (.error { code := .unauthenticated, msg := "invalid credentials" }, []) :=
  (login_distinguishes_failures { jwtSecret := "sec", jwtTTL := 60, refreshTTL := 600 }
      [{ id := "u1", name := "alice" }]
      [{ userId := "u1", passwordHash := "bcrypt(pw1)" }] []
      { name := "alice", password := "wrong" } 5 none "" true
      (by decide) (by decide)).2.1
    "u1" "bcrypt(pw1)" (by rfl) (by decide)

/-! ### Gateway lemmas -/

lemma isPrefixChars_mono : ∀ (s p q : List Char), isPrefixChars p s = true →
    isPrefixChars q s = true → p.length ≤ q.length → isPrefixChars p q = true
  | _, [], _, _, _, _ => rfl
  | _, _ :: _, [], _, _, hle => by simp at hle
  | [], _ :: _, _ :: _, h1, _, _ => by simp [isPrefixChars] at h1
  | b :: bs, a :: as, c :: cs, h1, h2, hle => by
      simp only [isPrefixChars, Bool.and_eq_true, beq_iff_eq] at h1 h2 ⊢
      refine ⟨by rw [h1.1, h2.1], ?_⟩
      exact isPrefixChars_mono bs as cs h1.2 h2.2 (by simpa using hle)

/-- A path under the admin prefix matches none of the public path prefixes. -/
lemma admin_not_public {path : String} (h : goStartsWith path "/v1/admin/" = true) :
    publicPaths.any (fun p => goStartsWith path p) = false := by
  have key : ∀ (p : String), isPrefixChars "/v1/admin/".data p.data = false →
      "/v1/admin/".data.length ≤ p.data.length → goStartsWith path p = false := by
    intro p hfalse hlen
    cases hq : goStartsWith path p with
    | false => rfl
    | true =>
      have hmono := isPrefixChars_mono path.data "/v1/admin/".data p.data h hq hlen
      rw [hfalse] at hmono
      cases hmono
  unfold publicPaths
  simp only [List.any_cons, List.any_nil, Bool.or_false]
  rw [key "/v1/auth/login" (by decide) (by decide),
      key "/v1/auth/register" (by decide) (by decide),
      key "/v1/auth/refresh" (by decide) (by decide)]
  rfl

lemma splitFirstSpace_bearer (l : List Char) :
    splitFirstSpace ("Bearer ".data ++ l) = some ("Bearer".data, l) := rfl

/-- Splitting a well-formed bearer header at the first space yields exactly
the scheme and the token (which may itself contain spaces). -/
lemma splitN2Space_bearer (ts : String) : splitN2Space ("Bearer " ++ ts) = ["Bearer", ts] := by
  unfold splitN2Space
  rw [show ("Bearer " ++ ts).data = "Bearer ".data ++ ts.data from rfl, splitFirstSpace_bearer]

lemma bearer_ne_empty (ts : String) : ("Bearer " ++ ts) ≠ "" := by
  intro h
  have hd : ("Bearer " ++ ts).data = "".data := by rw [h]
  rw [show ("Bearer " ++ ts).data = "Bearer ".data ++ ts.data from rfl] at hd
  simp at hd

/-- The gateway validator substitutes role `user` when the role claim is
absent from a valid token. -/
lemma validateToken_role_default (secret : String) (decode : String → Option JWT) (ts : String)
    (now : Nat) (tok : JWT) (cl : Claims)
    (hdec : decode ts = some tok) (hrole : tok.claims.role = "")
    (hval : validateToken secret decode ts now = some cl) :
    cl = { tok.claims with role := RoleUser } := by
  unfold validateToken at hval
  rw [hdec] at hval
  dsimp only at hval
  cases hp : parseHS256 secret tok now with
  | none => rw [hp] at hval; cases hval
  | some cl' =>
    have hcl' : cl' = tok.claims := by
      unfold parseHS256 at hp
      split at hp
      · cases hp
      · split at hp
        · cases hp
        · split at hp
          · cases hp
          · exact (Option.some.inj hp).symm
    rw [hp, hcl'] at hval
    dsimp only at hval
    by_cases hsub : tok.claims.sub = ""
    · rw [if_pos hsub] at hval
      cases hval
    · rw [if_neg hsub, if_pos hrole] at hval
      exact (Option.some.inj hval).symm

/-- On an admin path, a valid token whose (possibly defaulted) role is not
admin is rejected with 403. -/
lemma handler_admin_reject (secret : String) (decode : String → Option JWT) (path ts : String)
    (now : Nat) (cl : Claims)
    (hadmin : goStartsWith path "/v1/admin/" = true) (hts : ts ≠ "")
    (hval : validateToken secret decode ts now = some cl)
    (hrole : cl.role ≠ RoleAdmin) :
    Handler secret decode { path := path, authorization := "Bearer " ++ ts } now =
      .reject 403 "admin_access_required" := by
  have hpub := admin_not_public hadmin
  have hsplit := splitN2Space_bearer ts
  have hne := bearer_ne_empty ts
  simp [Handler, hpub, hsplit, hval, hadmin, hrole, hts, hne, goEqualFold]

/-- A successful Login's access token is an `issueAccessToken` result, hence
carries no role claim. -/
lemma login_ok_accessToken {s : Server} {users : List UserRow} {creds : List Credential}
    {db : RefreshDB} {req : LoginRequest} {now : Nat} {rb : Option (List Nat)} {team : String}
    {iOk : Bool} {resp : LoginResponse} {db2 : RefreshDB}
    (h : s.Login users creds db req now rb team iOk = (.ok resp, db2)) :
    ∃ uid, resp.accessToken = issueAccessToken s.jwtSecret uid team now s.jwtTTL := by
  unfold Server.Login at h
  split at h
  · simp at h
  · split at h
    · simp at h
    · next uid pw heq =>
        split at h
        · simp at h
        · split at h
          · simp at h
          · split at h
            · simp at h
            · simp only [Prod.mk.injEq, Except.ok.injEq] at h
              exact ⟨uid, by rw [← h.1]⟩

/-- Claim C8: the gateway middleware's per-request state machine — public
path prefixes bypass authentication; a request with no Authorization header
passes through unauthenticated; a present but malformed header is rejected
with 401 independently of any token decoding; and a request to an admin path
carrying a valid token whose role is not admin is rejected with 403. -/
theorem gateway_request_state_machine (secret : String) (req : GWRequest) (now : Nat) :
    (publicPaths.any (fun p => goStartsWith req.path p) = true →
       ∀ decode, Handler secret decode req now = .next none none none) ∧
    (publicPaths.any (fun p => goStartsWith req.path p) = false → req.authorization = "" →
       ∀ decode, Handler secret decode req now = .next none none none) ∧
    (publicPaths.any (fun p => goStartsWith req.path p) = false → req.authorization ≠ "" →
       ((splitN2Space req.authorization).length ≠ 2 ∨
        ¬ goEqualFold ((splitN2Space req.authorization).headD "") "Bearer" ∨
        (splitN2Space req.authorization).getD 1 "" = "") →
       ∀ decode, Handler secret decode req now = .reject 401 "invalid_authorization_header") ∧
    (goStartsWith req.path "/v1/admin/" = true →
       ∀ decode ts cl, req.authorization = "Bearer " ++ ts → ts ≠ "" →
         validateToken secret decode ts now = some cl → cl.role ≠ RoleAdmin →
         Handler secret decode req now = .reject 403 "admin_access_required") := by
  refine ⟨fun hpub decode => ?_, fun hpub hauth decode => ?_,
          fun hpub hauth hmal decode => ?_, fun hadmin decode ts cl hauth hts hval hrole => ?_⟩
  · simp [Handler, hpub]
  · simp [Handler, hpub, hauth]
  · simp only [Handler]
    rw [if_neg (by simp [hpub]), if_neg hauth, if_pos hmal]
  · have hreq : req = { path := req.path, authorization := "Bearer " ++ ts } := by
      rw [← hauth]
    rw [hreq]
    exact handler_admin_reject secret decode req.path ts now cl hadmin hts hval hrole

/-- Witness for C8: a valid non-admin token presented on an admin path is
rejected with 403 at concrete inputs. -/
theorem gateway_request_state_machine_witness :
    Handler "sec"
        (fun str => if str = "tok" then
          some (signJWT "sec" { teamID := "", role := "", sub := "bob", iat := 0, exp := 100 })
          else none)
        { path := "/v1/admin/users", authorization := "Bearer tok" } 5 =
      .reject 403 "admin_access_required" :=
  (gateway_request_state_machine "sec"
      { path := "/v1/admin/users", authorization := "Bearer tok" } 5).2.2.2
    (by decide)
    (fun str => if str = "tok" then
      some (signJWT "sec" { teamID := "", role := "", sub := "bob", iat := 0, exp := 100 })
      else none)
    "tok" { teamID := "", role := "user", sub := "bob", iat := 0, exp := 100 }
    (by decide) (by decide) (by rfl) (by decide)

/-- Claim C9: access tokens minted by Login and Refresh carry no role claim
(the claim set is team_id, sub, iat, exp only); the gateway validator
substitutes role `user` whenever the role claim is absent from a valid token;
consequently every token issued by the session service is treated as
non-admin and fails the admin-path check with 403. -/
theorem session_tokens_non_admin :
    (∀ (secret u t : String) (iat ttl : Nat),
       (issueAccessToken secret u t iat ttl).claims.role = "") ∧
    (∀ (s : Server) (users : List UserRow) (creds : List Credential) (db db2 : RefreshDB)
       (req : LoginRequest) (now : Nat) (rb : Option (List Nat)) (team : String) (iOk : Bool)
       (resp : LoginResponse),
       s.Login users creds db req now rb team iOk = (.ok resp, db2) →
       resp.accessToken.claims.role = "") ∧
    (∀ (s : Server) (db db' : RefreshDB) (req : RefreshTokenRequest) (now : Nat)
       (rb : Option (List Nat)) (team : String) (tx : TxEnv) (resp : LoginResponse),
       s.Refresh db req now rb team tx = (.ok resp, db') →
       resp.accessToken.claims.role = "") ∧
    (∀ (secret ts : String) (decode : String → Option JWT) (now : Nat) (tok : JWT) (cl : Claims),
       decode ts = some tok → tok.claims.role = "" →
       validateToken secret decode ts now = some cl → cl.role = RoleUser) ∧
    (∀ (secret ts path : String) (decode : String → Option JWT) (now : Nat) (tok : JWT)
       (cl : Claims),
       decode ts = some tok → tok.claims.role = "" →
       validateToken secret decode ts now = some cl →
       goStartsWith path "/v1/admin/" = true → ts ≠ "" →
       Handler secret decode { path := path, authorization := "Bearer " ++ ts } now =
         .reject 403 "admin_access_required") := by
  refine ⟨fun secret u t iat ttl => rfl, ?_, ?_, ?_, ?_⟩
  · intro s users creds db db2 req now rb team iOk resp h
    obtain ⟨uid, hak⟩ := login_ok_accessToken h
    rw [hak]
    rfl
  · intro s db db' req now rb team tx resp h
    obtain ⟨htv, row, hfind, hrej, hresp, hfresh, hdb'⟩ := refresh_ok_spec h
    rw [hresp]
    rfl
  · intro secret ts decode now tok cl hdec hrole hval
    rw [validateToken_role_default secret decode ts now tok cl hdec hrole hval]
  · intro secret ts path decode now tok cl hdec hrole hval hadmin hts
    have hcl := validateToken_role_default secret decode ts now tok cl hdec hrole hval
    refine handler_admin_reject secret decode path ts now cl hadmin hts hval ?_
    rw [hcl]
    show RoleUser ≠ RoleAdmin
    decide

/-- Witness for C9: a concrete service-issued token (no role claim) on an
admin path is rejected with 403. -/
theorem session_tokens_non_admin_witness :
    Handler "sec"
        (fun str => if str = "tik" then some (issueAccessToken "sec" "bob" "" 0 100) else none)
        { path := "/v1/admin/x", authorization := "Bearer " ++ "tik" } 5 =
      .reject 403 "admin_access_required" :=
  session_tokens_non_admin.2.2.2.2 "sec" "tik" "/v1/admin/x"
    (fun str => if str = "tik" then some (issueAccessToken "sec" "bob" "" 0 100) else none)
    5 (issueAccessToken "sec" "bob" "" 0 100)
    { teamID := "", role := "user", sub := "bob", iat := 0, exp := 100 }
    (by rfl) (by rfl) (by rfl) (by decide) (by decide)

end CyberArena
